import Mathlib

/-!
Verification development for the fact-check-lens repository.

The definitions below are a shallow embedding of the parts of the code that
the verified properties concern:

* `src/types.ts` — the data model (verdicts, claims, evidence, responses);
* `src/unnamed/part_000` (geminiService) — JSON extraction from the raw model
  output, the basic field-presence validation, and request-part construction;
* `src/services/pdfService.ts` — per-page PDF text concatenation with page
  markers, the 10-page cap, and the emptiness check;
* `src/services/reportService.ts` — the deterministic page layout with its
  running vertical cursor and `checkPageBreak` helper;
* `src/unnamed/part_001` (App) — the history buffer and the analysis state
  machine driven by `handleSubmit`.

Raw response texts and PDF page texts are modelled as `List Char`; inert
string payloads (titles, reasoning, summaries) stay `String`.  Text wrapping
(`splitTextToSize` of the jsPDF collaborator) is abstracted as a function
giving the number of wrapped lines for a text at a given width, per the
external-interface contract.  JavaScript numbers that only travel through the
data (confidence values) are modelled as `Rat`.
-/

/-- Characters of a string literal. -/
def chars (s : String) : List Char := s.toList

/-- Decimal digits of a natural number, as characters. -/
def natChars (n : Nat) : List Char := Nat.toDigits 10 n

/-- Whitespace recognised by the JavaScript `String.trim` calls in the code
(the code only ever trims ASCII whitespace in practice). -/
def isWhitespaceChar (c : Char) : Bool :=
  c == ' ' || c == '\n' || c == '\t' || c == '\r'

/-- Model of `String.prototype.trim`: drop leading and trailing whitespace. -/
def trimChars (s : List Char) : List Char :=
  ((s.dropWhile isWhitespaceChar).reverse.dropWhile isWhitespaceChar).reverse

/-- Index of the first occurrence of a character, model of `indexOf`
(`none` where JavaScript returns `-1`). -/
def firstIdx (c : Char) : List Char → Option Nat
  | [] => none
  | a :: as => if a = c then some 0 else (firstIdx c as).map (· + 1)

/-- Index of the last occurrence of a character, model of `lastIndexOf`. -/
def lastIdx (c : Char) (s : List Char) : Option Nat :=
  (firstIdx c s.reverse).map (fun k => s.length - 1 - k)

/-! ## Data model, from `src/types.ts` -/

/-- `InputType` from types.ts. -/
inductive InputType
  | text | image | video | audio | pdf | url | mixed
deriving DecidableEq

/-- `ClaimType` from types.ts. -/
inductive ClaimType
  | explicit | implicit
deriving DecidableEq

/-- `SourceType` from types.ts. -/
inductive SourceType
  | news | research | official | factcheck | video | archive | other
deriving DecidableEq

/-- `Verdict` from types.ts. -/
inductive Verdict
  | true | false | misleading | out_of_context | ai_generated | unknown
deriving DecidableEq

/-- `Evidence` from types.ts. -/
structure Evidence where
  source_title : String
  source_url : String
  source_type : SourceType
  quote : String
  extracted_text : Option String
  confidence_in_source : Rat
  retrieved_at : String
deriving DecidableEq

/-- `Claim` from types.ts. -/
structure Claim where
  id : String
  claim_text : String
  claim_type : ClaimType
  entities : List String
  evidence : List Evidence
  verdict : Verdict
  verdict_confidence : Rat
  reasoning : String
  suggested_search_queries : List String
  provenance : List String
deriving DecidableEq

/-- `SafetyWarning.category` from types.ts. -/
inductive SafetyCategory
  | medical | legal | privacy | violent_content | self_harm | other
deriving DecidableEq

/-- `SafetyWarning` from types.ts. -/
structure SafetyWarning where
  category : SafetyCategory
  message : String
  recommended_action : String
deriving DecidableEq

/-- `InputSummary` from types.ts. -/
structure InputSummary where
  input_type : InputType
  raw_input_excerpt : String
  detected_claims_count : Nat
deriving DecidableEq

/-- `MetaData` from types.ts. -/
structure MetaData where
  search_queries : List String
  timestamp_utc : String
  model : String
  notes : Option String
  vision_note : Option String
deriving DecidableEq

/-- `FactCheckResponse` from types.ts. -/
structure FactCheckResponse where
  input_summary : InputSummary
  claims : List Claim
  overall_verdict : Verdict
  overall_confidence : Rat
  explainable_summary : String
  suggested_actions : List String
  safety_warnings : List SafetyWarning
  meta : MetaData
deriving DecidableEq

/-! ## Response extraction, from `src/unnamed/part_000` (geminiService),
`analyzeContent` lines 81-105 -/

/-- The extraction-stage error: the raw text lacks a `\x7b` or a `\x7d`
delimiter ("Response did not contain valid JSON structure."). -/
inductive ExtractErr
  | noJsonFound
deriving DecidableEq

/-- The extraction step of `analyzeContent`: `firstOpen = indexOf` of the
opening brace, `lastClose = lastIndexOf` of the closing brace; if either is
absent the code throws; otherwise the candidate is
`resultText.substring(firstOpen, lastClose + 1)`.  JavaScript `substring`
swaps its arguments when the start exceeds the end, hence the `min`/`max`. -/
def extractJsonCandidate (s : List Char) : Except ExtractErr (List Char) :=
  match firstIdx '\x7b' s, lastIdx '\x7d' s with
  | some i, some j => .ok ((s.take (max i (j + 1))).drop (min i (j + 1)))
  | _, _ => .error .noJsonFound

/-- The parsed-but-unvalidated view of the model output that the basic
validation in `analyzeContent` inspects: `JSON.parse` is a collaborator and
its result may lack fields despite the `as FactCheckResponse` cast, so the
two checked fields are `Option`-valued here (`claims` absent means the
JavaScript value is `undefined`/`null`, i.e. falsy). -/
structure RawResponse where
  claims : Option (List Claim)
  overall_verdict : Option String
deriving DecidableEq

/-- JavaScript truthiness of an optional string: absent and empty strings are
falsy. -/
def truthyStr : Option String → Bool
  | none => Bool.false
  | some s => !s.isEmpty

/-- The basic validation of `analyzeContent` (lines 95-98): throw
"Response JSON missing required fields." when `!jsonResponse.claims` or
`!jsonResponse.overall_verdict`; otherwise return the response unchanged. -/
def validateBasic (r : RawResponse) : Except String RawResponse :=
  if r.claims.isSome && truthyStr r.overall_verdict then .ok r
  else .error "Response JSON missing required fields."

/-- Modelled from the spec: the schema invariant of section 3, "if verdict is
not unknown, evidence is non-empty", which the spec says the validation layer
must flag.  This definition follows the words of the spec, for comparison
with `validateBasic`, which is taken from the code. -/
def specEvidenceInvariant (cs : List Claim) : Bool :=
  cs.all (fun c => decide (c.verdict = Verdict.unknown) || !c.evidence.isEmpty)

/-! ## Request parts, from `src/unnamed/part_000`, `analyzeContent`
lines 31-57 -/

/-- The analysis mode selected by the caller. -/
inductive Mode
  | standard | deep
deriving DecidableEq

/-- The mode-dependent instruction put in front of the prompt text. -/
def modeDirective : Mode → String
  | .deep => "CONDUCT A DEEP DIVE ANALYSIS. Search extensively for historical context, scientific consensus, and multiple viewpoints. Be extremely rigorous with evidence selection. "
  | .standard => ""

/-- An `inlineData` request part as built by `analyzeContent`. -/
structure InlinePart where
  data : String
  mimeType : String
deriving DecidableEq

/-- A request part: inline binary data or instruction text. -/
inductive GenPart
  | inlineData (d : InlinePart)
  | textPart (t : String)
deriving DecidableEq

/-- The URL test of `analyzeContent` line 51: the trimmed text matches
the pattern `(http|https)` then `://` then one or more characters none of
which is a space or a double quote. -/
def isUrlInput (t : List Char) : Bool :=
  let tailOk := fun (cs : List Char) =>
    !cs.isEmpty && cs.all (fun c => !(c == ' ' || c == '\"'))
  (match t with
   | 'h' :: 't' :: 't' :: 'p' :: ':' :: '/' :: '/' :: rest => tailOk rest
   | 'h' :: 't' :: 't' :: 'p' :: 's' :: ':' :: '/' :: '/' :: rest => tailOk rest
   | _ => Bool.false)

/-- The text-only parts branch of `analyzeContent` (lines 49-57): a single
text part, with a URL-specific instruction when the text looks like a bare
URL. -/
def textOnlyParts (text : String) (mode : Mode) : List GenPart :=
  if isUrlInput (trimChars text.toList) then
    [ GenPart.textPart (modeDirective mode ++
        "Analyze the content at this URL: " ++ text ++
        ". Extract claims and verify them.") ]
  else
    [ GenPart.textPart (modeDirective mode ++ text) ]

/-- The parts list built by `analyzeContent` (lines 39-57).  The guard is the
JavaScript truthiness test `if (imageBase64)`, which is false both when the
argument is absent and when it is the empty string (a zero-byte file): only
a present, non-empty base64 string yields the `inlineData` part — whose
`mimeType` is the literal string constant in the code — followed by the
instruction text; otherwise the text-only branch runs. -/
def buildParts (text : String) (imageBase64 : Option String) (mode : Mode) :
    List GenPart :=
  match imageBase64 with
  | some b =>
      if b.isEmpty then textOnlyParts text mode
      else
        [ GenPart.inlineData { data := b, mimeType := "image/jpeg" },
          GenPart.textPart (modeDirective mode ++ "Analyze this image. " ++
            (if text.isEmpty then "" else "Context: " ++ text)) ]
  | none => textOnlyParts text mode

/-- A submitted media file: its declared MIME type and its base64-encoded
bytes (encoding itself is a browser collaborator). -/
structure MediaFile where
  mime : String
  dataBase64 : String
deriving DecidableEq

/-- The data URL that `FileReader.readAsDataURL` produces for a file. -/
def dataUrlOf (f : MediaFile) : String :=
  "data:" ++ f.mime ++ ";base64," ++ f.dataBase64

/-- Characters after the first comma, model of `result.split(',')[1]` for a
data URL (base64 data contains no comma). -/
def afterFirstComma : List Char → List Char
  | [] => []
  | c :: cs => if c = ',' then cs else afterFirstComma cs

/-- `fileToBase64` from `src/unnamed/part_001` (lines 286-297): read the file
as a data URL and keep only the part after the comma, discarding the header
that carries the MIME type. -/
def fileToBase64 (f : MediaFile) : String :=
  String.mk (afterFirstComma (dataUrlOf f).toList)

/-- The request parts produced for a submitted image file: `handleSubmit`
base64-encodes the file and `analyzeContent` builds the parts. -/
def submitImagePayload (f : MediaFile) (text : String) (mode : Mode) :
    List GenPart :=
  buildParts text (some (fileToBase64 f)) mode

/-- The MIME tag of a request part, when it is an inline binary part. -/
def partMime : Option GenPart → Option String
  | some (GenPart.inlineData d) => some d.mimeType
  | _ => none

/-! ## PDF text extraction, from `src/services/pdfService.ts`,
`extractTextFromPdf` lines 20-65.  The pdf.js collaborator supplies the
per-page plain texts in page order; the embedding takes that list. -/

/-- The failure of `extractTextFromPdf` when the concatenated text trims to
nothing ("No text content found in PDF. It might be an image-only scan."). -/
inductive PdfError
  | emptyContent
deriving DecidableEq

/-- One page marker line: the template `[Page ` i `] ` pageText newline. -/
def pageLine (i : Nat) (t : List Char) : List Char :=
  chars "[Page " ++ natChars i ++ chars "] " ++ t ++ ['\n']

/-- The page loop of `extractTextFromPdf`: pages numbered from `i` upward,
each contributing its marker line. -/
def pagesText : Nat → List (List Char) → List Char
  | _, [] => []
  | i, t :: ts => pageLine i t ++ pagesText (i + 1) ts

/-- The truncation notice appended when the document has more pages than the
cap. -/
def truncNotice (maxPages : Nat) : List Char :=
  chars "\n[...Truncated. Analysis limited to first " ++ natChars maxPages ++
    chars " pages...]"

/-- The full text accumulated by `extractTextFromPdf`: at most the first 10
pages with markers, then the truncation notice when pages remain. -/
def buildFullText (pages : List (List Char)) : List Char :=
  let maxPages := min pages.length 10
  let body := pagesText 1 (pages.take maxPages)
  if pages.length > maxPages then body ++ truncNotice maxPages else body

/-- `extractTextFromPdf`: build the full text, then fail when it trims to the
empty string, else return it. -/
def extractTextFromPdf (pages : List (List Char)) :
    Except PdfError (List Char) :=
  let fullText := buildFullText pages
  if (trimChars fullText).isEmpty then .error .emptyContent else .ok fullText

/-! ## Report layout, from `src/services/reportService.ts`,
`generatePdfReport` lines 4-176.

The jsPDF collaborator is abstracted per the external-interface contract:
`wrap text width` is the number of lines `splitTextToSize` returns for a text
at a given content width; drawing primitives record blocks.  A4 portrait in
millimetres gives `pageHeight = 297` and `pageWidth = 210`; all cursor
increments in the code are integers, so the cursor is a `Nat` and the
comparison `y + heightNeeded > pageHeight - margin` is exact. -/

/-- Page geometry: `doc.internal.pageSize.getHeight()` for A4 portrait. -/
def pageHeight : Nat := 297

/-- Page geometry: `doc.internal.pageSize.getWidth()` for A4 portrait. -/
def pageWidth : Nat := 210

/-- The fixed margin of `generatePdfReport`. -/
def margin : Nat := 20

/-- The content width `pageWidth - margin * 2`. -/
def contentWidth : Nat := pageWidth - margin * 2

/-- The layout cursor: current page number (1-based) and vertical position. -/
structure LayoutSt where
  page : Nat
  y : Nat
deriving DecidableEq

/-- The `checkPageBreak` helper of `generatePdfReport` (lines 19-26): when
`y + heightNeeded` would pass `pageHeight - margin`, add a page and reset the
cursor to the top margin. -/
def checkPageBreak (heightNeeded : Nat) (st : LayoutSt) : LayoutSt :=
  if st.y + heightNeeded > pageHeight - margin then { page := st.page + 1, y := 20 }
  else st

/-- A drawn content block: the page it lands on, the cursor position at which
it starts, its drawn height (number of wrapped lines times the per-line
advance for wrapped text), and its rendered content. -/
structure Block where
  page : Nat
  y : Nat
  h : Nat
  content : String
deriving DecidableEq

/-- The layout-relevant projection of a block. -/
def blockPos (b : Block) : Nat × Nat × Nat := (b.page, b.y, b.h)

/-- Uppercased verdict text as printed in the report. -/
def verdictUpper : Verdict → String
  | .true => "TRUE"
  | .false => "FALSE"
  | .misleading => "MISLEADING"
  | .out_of_context => "OUT_OF_CONTEXT"
  | .ai_generated => "AI_GENERATED"
  | .unknown => "UNKNOWN"

/-- Printed source-type tag of an evidence entry. -/
def sourceTypeText : SourceType → String
  | .news => "news"
  | .research => "research"
  | .official => "official"
  | .factcheck => "factcheck"
  | .video => "video"
  | .archive => "archive"
  | .other => "other"

/-- `Math.round` on a rational, as used for the printed confidence. -/
def jsRound (q : Rat) : Int := Rat.floor (q + 1/2)

/-- The printed confidence line of the summary box. -/
def confidenceLine (data : FactCheckResponse) : String :=
  "AI Confidence: " ++ toString (jsRound (data.overall_confidence * 100)) ++ "%"

/-- The printed claim-count line of the summary box. -/
def claimsCountLine (data : FactCheckResponse) : String :=
  "Claims Analyzed: " ++ toString data.input_summary.detected_claims_count

/-- The printed header of one claim section. -/
def claimTitleText (idx : Nat) (c : Claim) : String :=
  "Claim " ++ toString (idx + 1) ++ ": " ++ verdictUpper c.verdict

/-- The claim text as wrapped, surrounded by double quotes. -/
def quotedClaimText (c : Claim) : String := "\"" ++ c.claim_text ++ "\""

/-- The clickable evidence link line. -/
def evLinkText (ev : Evidence) : String :=
  "• " ++ ev.source_title ++ " (" ++ sourceTypeText ev.source_type ++ ")"

/-- The optional evidence quote line, capped at 100 characters with an
ellipsis marker when longer. -/
def evQuoteLine (ev : Evidence) : String :=
  "  \"" ++ ev.quote.take 100 ++
    (if ev.quote.length > 100 then "..." else "") ++ "\""

/-- The evidence loop (lines 134-159): each entry checks for a break with the
fixed estimate 15, draws the link line, advances 5, and when the quote string
is truthy draws the quote line and advances 5 more. -/
def evidenceBlocks : LayoutSt → List Evidence → List Block × LayoutSt
  | st, [] => ([], st)
  | st, ev :: rest =>
    let st1 := checkPageBreak 15 st
    let st2 : LayoutSt := { page := st1.page, y := st1.y + 5 }
    if ev.quote.isEmpty then
      let r := evidenceBlocks st2 rest
      ({ page := st1.page, y := st1.y, h := 5, content := evLinkText ev } :: r.1,
       r.2)
    else
      let st3 : LayoutSt := { page := st2.page, y := st2.y + 5 }
      let r := evidenceBlocks st3 rest
      ({ page := st1.page, y := st1.y, h := 5, content := evLinkText ev } ::
       { page := st2.page, y := st2.y, h := 5, content := evQuoteLine ev } ::
       r.1, r.2)

/-- The evidence section of one claim (lines 126-161): skipped when the list
is empty; otherwise a break check with estimate 30, the heading, advance 6,
the evidence loop, and a final advance of 5. -/
def claimEvidenceSection (st : LayoutSt) (c : Claim) : List Block × LayoutSt :=
  if c.evidence.isEmpty then ([], st)
  else
    let st3 := checkPageBreak 30 st
    let r := evidenceBlocks { page := st3.page, y := st3.y + 6 } c.evidence
    ({ page := st3.page, y := st3.y, h := 5, content := "Evidence / Proofs:" } ::
     r.1,
     { page := r.2.page, y := r.2.y + 5 })

/-- The claims loop of `generatePdfReport` (lines 89-163).  Per claim: a
break check with estimate 50; the divider line, advance 5; the claim header,
advance 7; the wrapped claim text, advance lines times 6 plus 5; a break
check with estimate 20; the Analysis label, advance 5; the wrapped reasoning,
advance lines times 5 plus 8; the evidence section; and a final advance 5. -/
def claimBlocks (wrap : String → Nat → Nat) :
    LayoutSt → Nat → List Claim → List Block × LayoutSt
  | st, _, [] => ([], st)
  | st, idx, c :: rest =>
    let st1 := checkPageBreak 50 st
    let stB : LayoutSt := { page := st1.page, y := st1.y + 12 }
    let ct := wrap (quotedClaimText c) (contentWidth - 5)
    let st2 := checkPageBreak 20 { page := stB.page, y := stB.y + ct * 6 + 5 }
    let r := wrap c.reasoning (contentWidth - 10)
    let stE : LayoutSt := { page := st2.page, y := st2.y + 5 + r * 5 + 8 }
    let ev := claimEvidenceSection stE c
    let stI : LayoutSt := { page := ev.2.page, y := ev.2.y + 5 }
    let tail := claimBlocks wrap stI (idx + 1) rest
    ({ page := st1.page, y := st1.y, h := 0, content := "divider line" } ::
     { page := st1.page, y := st1.y + 5, h := 5, content := claimTitleText idx c } ::
     { page := stB.page, y := stB.y, h := ct * 6, content := c.claim_text } ::
     { page := st2.page, y := st2.y, h := 5, content := "Analysis:" } ::
     { page := st2.page, y := st2.y + 5, h := r * 5, content := c.reasoning } ::
     (ev.1 ++ tail.1), tail.2)

/-- The laid-out report: cursor-positioned content blocks in drawing order,
and the footer pass output (one stamped line per generated page, at the
fixed position `pageHeight - 10` inside the bottom margin, hence kept apart
from the cursor-driven blocks). -/
structure Report where
  blocks : List Block
  footer : List (Nat × String)
deriving DecidableEq

/-- `generatePdfReport`: header, timestamp line, summary box with its texts,
executive summary heading and wrapped summary, a break check with estimate
20, the claims heading, the claims loop, and the two-pass footer stamped with
the final total page count.  `nowText` is the printed timestamp text
(`new Date().toLocaleString()`), an input so that its influence can be
stated; `wrap` is the line-count collaborator. -/
def generatePdfReport (wrap : String → Nat → Nat) (nowText : String)
    (data : FactCheckResponse) : Report :=
  let y0 := 20
  let titleB : Block := { page := 1, y := y0, h := 5, content := "Instant Fact-Check Lens" }
  let y1 := y0 + 10
  let dateB : Block := { page := 1, y := y1, h := 5, content := "Generated on " ++ nowText }
  let y2 := y1 + 15
  let boxB : Block := { page := 1, y := y2, h := 35, content := "verdict summary box" }
  let verdictLabelB : Block := { page := 1, y := y2 + 10, h := 5, content := "Overall Verdict:" }
  let verdictB : Block := { page := 1, y := y2 + 10, h := 5, content := verdictUpper data.overall_verdict }
  let confB : Block := { page := 1, y := y2 + 20, h := 5, content := confidenceLine data }
  let countB : Block := { page := 1, y := y2 + 20, h := 5, content := claimsCountLine data }
  let y3 := y2 + 45
  let execB : Block := { page := 1, y := y3, h := 5, content := "Executive Summary" }
  let y4 := y3 + 8
  let sLines := wrap data.explainable_summary contentWidth
  let sumB : Block := { page := 1, y := y4, h := sLines * 6, content := data.explainable_summary }
  let y5 := y4 + sLines * 6 + 10
  let st1 := checkPageBreak 20 { page := 1, y := y5 }
  let headB : Block := { page := st1.page, y := st1.y, h := 5, content := "Detailed Claims Analysis" }
  let cbs := claimBlocks wrap { page := st1.page, y := st1.y + 10 } 0 data.claims
  let totalPages := cbs.2.page
  { blocks := [titleB, dateB, boxB, verdictLabelB, verdictB, confB, countB,
               execB, sumB, headB] ++ cbs.1,
    footer := (List.range totalPages).map (fun i =>
      (i + 1, "Page " ++ toString (i + 1) ++ " of " ++ toString totalPages ++
        " - Generated by Instant Fact-Check Lens")) }

/-- The property stated by the paginator claim, as a check over the emitted
blocks in drawing order: every block either fits above `pageHeight - margin`
or is the first content block of its page (the overflow went to a fresh
page).  `seen` carries the pages already drawn on. -/
def blocksRespectBreaks : List Nat → List Block → Bool
  | _, [] => Bool.true
  | seen, b :: bs =>
    (decide (b.y + b.h ≤ pageHeight - margin) || !(seen.contains b.page)) &&
      blocksRespectBreaks (b.page :: seen) bs

/-! ## History and session state, from `src/unnamed/part_001` (App) -/

/-- `HistoryItem` from App (lines 28-34); the query label is kept as
characters because length and truncation are reasoned about. -/
structure HistoryItem where
  id : String
  query : List Char
  date : Nat
  verdict : Verdict
  confidence : Rat
deriving DecidableEq

/-- The new entry built by `addToHistory` (lines 153-161): ids and dates come
from `Date.now()`, here the `now` input; queries longer than 60 characters
are cut to 60 and get a three-character ellipsis appended. -/
def mkHistoryItem (now : Nat) (query : List Char) (r : FactCheckResponse) :
    HistoryItem :=
  { id := String.mk (natChars now),
    query := if query.length > 60 then query.take 60 ++ chars "..." else query,
    date := now,
    verdict := r.overall_verdict,
    confidence := r.overall_confidence }

/-- `addToHistory` (lines 153-165): prepend the new entry and keep the first
10 (`[newItem, ...history].slice(0, 10)`), then persist the result. -/
def addToHistory (now : Nat) (query : List Char) (r : FactCheckResponse)
    (history : List HistoryItem) : List HistoryItem :=
  (mkHistoryItem now query r :: history).take 10

/-- The `status` field of `AnalysisState` from types.ts. -/
inductive Status
  | idle | analyzing | complete | error
deriving DecidableEq

/-- `AnalysisState` from types.ts (lines 63-67). -/
structure AnalysisState where
  status : Status
  data : Option FactCheckResponse
  error : Option String
deriving DecidableEq

/-- The App state the claims concern: the analysis state machine plus the
history list. -/
structure AppState where
  analysis : AnalysisState
  history : List HistoryItem
deriving DecidableEq

/-- The state-changing events of App: `handleSubmit` dispatch (line 303), its
success continuation (lines 324-326), its catch branch (lines 327-334), the
several returns to idle (error dismiss, logo click, new search, `clearAll`),
and the history Clear button (line 416). -/
inductive Ev
  | submit
  | finishOk (now : Nat) (query : List Char) (r : FactCheckResponse)
  | finishErr (msg : String)
  | reset
  | clearHistory

/-- The transition function: each arm is the corresponding `setState` (and
for success also `addToHistory`) call in App. -/
def stepApp (s : AppState) : Ev → AppState
  | .submit =>
      { s with analysis := { status := .analyzing, data := none, error := none } }
  | .finishOk now q r =>
      { analysis := { status := .complete, data := some r, error := none },
        history := addToHistory now q r s.history }
  | .finishErr m =>
      { s with analysis := { status := .error, data := none, error := some m } }
  | .reset =>
      { s with analysis := { status := .idle, data := none, error := none } }
  | .clearHistory =>
      { s with history := [] }

/-- The initial App state (line 49: `useState({ status: 'idle', data: null })`,
line 54: empty history). -/
def initApp : AppState :=
  { analysis := { status := .idle, data := none, error := none }, history := [] }

/-- States reachable from the initial state under App events. -/
inductive ReachableApp : AppState → Prop
  | init : ReachableApp initApp
  | next (s : AppState) (e : Ev) : ReachableApp s → ReachableApp (stepApp s e)

/-! ## Sample data used by concrete witnesses and counterexamples -/

/-- A sample metadata record. -/
def sampleMeta : MetaData :=
  { search_queries := [], timestamp_utc := "2026-01-01T00:00:00Z",
    model := "gemini-2.5-flash", notes := none, vision_note := none }

/-- A sample input summary. -/
def sampleSummary : InputSummary :=
  { input_type := .text, raw_input_excerpt := "sample", detected_claims_count := 1 }

/-- A sample validated response with no claims. -/
def sampleResponse : FactCheckResponse :=
  { input_summary := sampleSummary, claims := [],
    overall_verdict := .unknown, overall_confidence := 1/2,
    explainable_summary := "summary text", suggested_actions := [],
    safety_warnings := [], meta := sampleMeta }

/-- A claim carrying a definite verdict but no evidence, violating the
schema invariant of the spec. -/
def emptyEvidenceClaim : Claim :=
  { id := "c1", claim_text := "sample claim", claim_type := .explicit,
    entities := [], evidence := [], verdict := Verdict.false,
    verdict_confidence := 9/10, reasoning := "sample reasoning",
    suggested_search_queries := [], provenance := [] }

/-- A parsed response holding the invariant-violating claim, with both
fields the basic validation checks present and truthy. -/
def rawMissingEvidence : RawResponse :=
  { claims := some [emptyEvidenceClaim], overall_verdict := some "false" }

/-- A query of 61 characters, one past the label cutoff. -/
def longQuery : List Char := List.replicate 61 'a'

/-! ## Helper lemmas about the index functions -/

/-- `firstIdx` returns `none` exactly when the character is absent. -/
theorem firstIdx_eq_none_iff (c : Char) (s : List Char) :
    firstIdx c s = none ↔ c ∉ s := by
  induction s with
  | nil => simp [firstIdx]
  | cons a as ih =>
    simp only [firstIdx]
    split
    · rename_i h
      subst h
      simp
    · rename_i h
      rw [Option.map_eq_none', ih, List.mem_cons]
      constructor
      · intro h1 h2
        rcases h2 with h2 | h2
        · exact h h2.symm
        · exact h1 h2
      · intro h1 h2
        exact h1 (Or.inr h2)

/-- `firstIdx` skips a block that does not contain the character. -/
theorem firstIdx_append_of_not_mem {c : Char} {l₁ : List Char} (h : c ∉ l₁)
    (l₂ : List Char) :
    firstIdx c (l₁ ++ l₂) = (firstIdx c l₂).map (· + l₁.length) := by
  induction l₁ with
  | nil =>
    simp only [List.nil_append, List.length_nil]
    cases firstIdx c l₂ <;> simp
  | cons a as ih =>
    have ha : ¬ a = c := fun hac => h (by rw [hac]; exact List.mem_cons_self c as)
    have has : c ∉ as := fun hm => h (List.mem_cons_of_mem a hm)
    rw [List.cons_append]
    simp only [firstIdx, if_neg ha]
    rw [ih has, List.length_cons]
    cases firstIdx c l₂ <;> simp [Nat.add_assoc]

/-- `firstIdx` at the seam: the first occurrence right after a clean block. -/
theorem firstIdx_concat {pre rest : List Char} {c : Char} (h : c ∉ pre) :
    firstIdx c (pre ++ c :: rest) = some pre.length := by
  rw [firstIdx_append_of_not_mem h]
  simp [firstIdx]

/-- `lastIdx` of the final character of the middle block, when the suffix is
clean. -/
theorem lastIdx_concat {obj suf : List Char} (pre : List Char) {c : Char}
    (hsuf : c ∉ suf) (hlast : obj.getLast? = some c) :
    lastIdx c (pre ++ obj ++ suf) = some (pre.length + obj.length - 1) := by
  have hrev : obj.reverse.head? = some c := by rw [List.head?_reverse]; exact hlast
  obtain ⟨t, ht⟩ : ∃ t, obj.reverse = c :: t := by
    cases hr : obj.reverse with
    | nil => rw [hr] at hrev; simp at hrev
    | cons a t =>
      rw [hr] at hrev
      simp only [List.head?_cons, Option.some.injEq] at hrev
      exact ⟨t, by rw [hrev]⟩
  have hobjlen : obj.length = t.length + 1 := by
    have := congrArg List.length ht
    simpa using this
  have hrw : (pre ++ obj ++ suf).reverse = suf.reverse ++ (c :: (t ++ pre.reverse)) := by
    rw [List.append_assoc, List.reverse_append, List.reverse_append, ht]
    simp
  have hmem : c ∉ suf.reverse := fun hm => hsuf (List.mem_reverse.mp hm)
  have hfi : firstIdx c ((pre ++ obj ++ suf).reverse) = some suf.length := by
    rw [hrw, firstIdx_concat hmem]
    simp
  unfold lastIdx
  rw [hfi]
  simp only [Option.map_some', Option.some.injEq, List.length_append]
  omega

/-- Reduction of the extraction once both indices are known. -/
theorem extractJsonCandidate_eq_of_idx {s : List Char} {i j : Nat}
    (h1 : firstIdx '\x7b' s = some i) (h2 : lastIdx '\x7d' s = some j) :
    extractJsonCandidate s =
      .ok ((s.take (max i (j + 1))).drop (min i (j + 1))) := by
  unfold extractJsonCandidate
  rw [h1, h2]

/-! ## C1 -/

/-- C1, counterexample.  The prose before the object may itself contain an
opening brace: for the raw text `see \x7b \x7b"a":1\x7d`, whose single
well-formed JSON object is `\x7b"a":1\x7d` preceded by the non-JSON text
`see \x7b `, the extracted candidate runs from the FIRST opening brace, so
it is the strictly larger string `\x7b \x7b"a":1\x7d` and not the object;
parsing that candidate cannot recover the object.  This refutes the claim
as stated, quantified over arbitrary surrounding non-JSON text. -/
theorem c1_counterexample :
    extractJsonCandidate (chars "see \x7b " ++ chars "\x7b\"a\":1\x7d") =
      .ok (chars "\x7b \x7b\"a\":1\x7d") ∧
    chars "\x7b \x7b\"a\":1\x7d" ≠ chars "\x7b\"a\":1\x7d" := by
  constructor
  · rfl
  · decide

/-- C1, amended.  When the text preceding the JSON object contains no
opening brace and the text following it contains no closing brace, the
extraction step of `analyzeContent` returns exactly the characters of the
object (the object starts with the opening brace and ends with the closing
brace), so parsing the candidate recovers exactly that object. -/
theorem c1_amended (pre obj suf : List Char)
    (hpre : '\x7b' ∉ pre) (hsuf : '\x7d' ∉ suf)
    (hhead : obj.head? = some '\x7b') (hlast : obj.getLast? = some '\x7d') :
    extractJsonCandidate (pre ++ obj ++ suf) = .ok obj := by
  obtain ⟨o, rfl⟩ : ∃ o, obj = '\x7b' :: o := by
    cases obj with
    | nil => simp at hhead
    | cons a o =>
      simp only [List.head?_cons, Option.some.injEq] at hhead
      exact ⟨o, by rw [hhead]⟩
  have h1 : firstIdx '\x7b' (pre ++ '\x7b' :: o ++ suf) = some pre.length := by
    rw [List.append_assoc, List.cons_append]
    exact firstIdx_concat hpre
  have h2 : lastIdx '\x7d' (pre ++ '\x7b' :: o ++ suf) =
      some (pre.length + ('\x7b' :: o).length - 1) :=
    lastIdx_concat pre hsuf hlast
  rw [extractJsonCandidate_eq_of_idx h1 h2]
  have hlen : ('\x7b' :: o).length = o.length + 1 := by simp
  have hj1 : pre.length + ('\x7b' :: o).length - 1 + 1 =
      pre.length + ('\x7b' :: o).length := by omega
  have hmin : min pre.length (pre.length + ('\x7b' :: o).length - 1 + 1) =
      pre.length := by omega
  have hmax : max pre.length (pre.length + ('\x7b' :: o).length - 1 + 1) =
      pre.length + ('\x7b' :: o).length := by omega
  rw [hmin, hmax]
  have htake : (pre ++ '\x7b' :: o ++ suf).take (pre.length + ('\x7b' :: o).length) =
      pre ++ '\x7b' :: o := List.take_left' (by simp)
  rw [htake, List.drop_left]

/-- C1, witness for the amended theorem at concrete surrounding prose. -/
theorem c1_amended_witness :
    extractJsonCandidate
        (chars "Sure, here is the json: " ++ chars "\x7b\"claims\":[]\x7d" ++
          chars " done.") =
      .ok (chars "\x7b\"claims\":[]\x7d") :=
  c1_amended (chars "Sure, here is the json: ") (chars "\x7b\"claims\":[]\x7d")
    (chars " done.") (by decide) (by decide) (by decide) (by decide)

/-! ## C2 -/

/-- C2, counterexample.  The raw text `\x7b\x7b\x7d` has unbalanced braces
(two opening, one closing) yet contains both delimiters, so the extraction
step does NOT fail with the NoJsonFoundError condition: it returns the
candidate unchanged and the failure, if any, only arises at the later parse
stage.  This refutes the claim as stated for unbalanced-brace inputs. -/
theorem c2_counterexample :
    extractJsonCandidate (chars "\x7b\x7b\x7d") = .ok (chars "\x7b\x7b\x7d") ∧
    extractJsonCandidate (chars "\x7b\x7b\x7d") ≠ .error ExtractErr.noJsonFound := by
  refine ⟨rfl, ?_⟩
  intro h
  rw [show extractJsonCandidate (chars "\x7b\x7b\x7d") =
      .ok (chars "\x7b\x7b\x7d") from rfl] at h
  exact Except.noConfusion h

/-- C2, amended.  For every raw response text lacking an opening brace or
lacking a closing brace, the extraction step of `analyzeContent` fails with
the NoJsonFoundError condition (it throws the specific error, it does not
crash or return a result); texts containing both delimiters, even with
unbalanced braces, proceed to the parse stage instead. -/
theorem c2_amended (s : List Char) (h : '\x7b' ∉ s ∨ '\x7d' ∉ s) :
    extractJsonCandidate s = .error ExtractErr.noJsonFound := by
  unfold extractJsonCandidate
  rcases h with h | h
  · rw [(firstIdx_eq_none_iff _ _).mpr h]
  · have hr : '\x7d' ∉ s.reverse := fun hm => h (List.mem_reverse.mp hm)
    have : lastIdx '\x7d' s = none := by
      unfold lastIdx
      rw [(firstIdx_eq_none_iff _ _).mpr hr]
      rfl
    rw [this]
    cases firstIdx '\x7b' s <;> rfl

/-- C2, witness: a plain-prose response with no braces at all fails with the
NoJsonFoundError condition. -/
theorem c2_amended_witness :
    extractJsonCandidate (chars "I cannot answer that.") =
      .error ExtractErr.noJsonFound :=
  c2_amended (chars "I cannot answer that.") (Or.inl (by decide))

/-! ## Trim lemmas -/

/-- If trimming leaves nothing, every character was whitespace. -/
theorem trimChars_eq_nil_imp {s : List Char} (h : trimChars s = []) :
    ∀ x ∈ s, isWhitespaceChar x = Bool.true := by
  unfold trimChars at h
  rw [List.reverse_eq_nil_iff, List.dropWhile_eq_nil_iff] at h
  intro x hx
  have hsplit := List.takeWhile_append_dropWhile isWhitespaceChar s
  rw [← hsplit] at hx
  rcases List.mem_append.mp hx with hx | hx
  · exact List.mem_takeWhile_imp hx
  · exact h x (List.mem_reverse.mpr hx)

/-- A list containing a non-whitespace character does not trim to empty. -/
theorem trimChars_isEmpty_false {s : List Char} {c : Char} (hc : c ∈ s)
    (hw : isWhitespaceChar c = Bool.false) :
    (trimChars s).isEmpty = Bool.false := by
  rw [List.isEmpty_eq_false]
  intro hnil
  have := trimChars_eq_nil_imp hnil c hc
  rw [hw] at this
  exact Bool.noConfusion this

/-! ## C3 -/

/-- C3, counterexample.  `rawMissingEvidence` carries a claim whose verdict
is false with an empty evidence list, violating the schema invariant, yet
the validation of `analyzeContent` returns it unchanged: nothing in the code
flags the violation before the result reaches the caller. -/
theorem c3_counterexample :
    validateBasic rawMissingEvidence = .ok rawMissingEvidence ∧
    specEvidenceInvariant [emptyEvidenceClaim] = Bool.false ∧
    emptyEvidenceClaim.verdict ≠ Verdict.unknown ∧
    emptyEvidenceClaim.evidence = [] := by
  refine ⟨rfl, rfl, by decide, rfl⟩

/-- C3, amended.  The implemented validation layer checks only that the
`claims` field is present and the `overall_verdict` field is present and
non-empty; every response passing those two checks is returned to the caller
unchanged, regardless of whether the per-claim evidence invariant holds, so
a claim with a definite verdict and no evidence is never flagged. -/
theorem c3_amended (r : RawResponse) (h1 : r.claims.isSome = Bool.true)
    (h2 : truthyStr r.overall_verdict = Bool.true) :
    validateBasic r = .ok r := by
  unfold validateBasic
  rw [h1, h2]
  rfl

/-- C3, witness: the amended theorem applied to the invariant-violating
response. -/
theorem c3_amended_witness :
    validateBasic rawMissingEvidence = .ok rawMissingEvidence :=
  c3_amended rawMissingEvidence rfl rfl

/-! ## C4 -/

/-- C4, evaluation at the failing input.  A one-page PDF whose extracted
page text is empty (an image-only scan): the pipeline of
`extractTextFromPdf` first decorates the page with its `[Page 1]` marker,
so the emptiness check — whose own error message says it is meant for
image-only scans — sees a non-empty string and never fires; the function
returns a success whose content carries no extracted page text, where the
claim (and the intent documented by the error message) requires the
EmptyContentError failure. -/
theorem c4_code_bug_eval :
    (trimChars (chars "")).isEmpty = Bool.true ∧
    extractTextFromPdf [chars ""] = .ok (chars "[Page 1] \n") := by
  exact ⟨rfl, rfl⟩

/-! ## C5 -/

/-- C5.  For every PDF whose page list has more than 10 pages, the function
returns exactly the marker-prefixed texts of pages 1 through 10 in ascending
order followed by the truncation notice; the result only depends on the
first ten pages, so no later page contributes text. -/
theorem c5_truncation (pages : List (List Char)) (h : 10 < pages.length) :
    extractTextFromPdf pages =
      .ok (pagesText 1 (pages.take 10) ++ truncNotice 10) := by
  have hmin : min pages.length 10 = 10 := Nat.min_eq_right (Nat.le_of_lt h)
  have hmemT : 'T' ∈ truncNotice 10 := by decide
  have hmem : 'T' ∈ pagesText 1 (pages.take 10) ++ truncNotice 10 :=
    List.mem_append_right _ hmemT
  have hne : (trimChars (pagesText 1 (pages.take 10) ++ truncNotice 10)).isEmpty
      = Bool.false := trimChars_isEmpty_false hmem (by decide)
  simp only [extractTextFromPdf, buildFullText, hmin]
  rw [if_pos h, if_neg]
  rw [hne]
  exact Bool.false_ne_true

/-- C5, witness: an eleven-page document evaluates to pages 1 through 10
plus the truncation notice. -/
theorem c5_truncation_witness :
    extractTextFromPdf (List.replicate 11 (chars "x")) =
      .ok (pagesText 1 ((List.replicate 11 (chars "x")).take 10) ++
        truncNotice 10) :=
  c5_truncation (List.replicate 11 (chars "x")) (by decide)

/-! ## Layout cursor lemmas -/

/-- After a break check for `heightNeeded`, the cursor leaves room for that
estimate above the bottom margin line. -/
theorem checkPageBreak_y_le (heightNeeded : Nat) (st : LayoutSt)
    (h : heightNeeded ≤ 257) :
    (checkPageBreak heightNeeded st).y + heightNeeded ≤ pageHeight - margin := by
  have hpm : pageHeight - margin = 277 := rfl
  unfold checkPageBreak
  split
  · show 20 + heightNeeded ≤ pageHeight - margin
    omega
  · rename_i hc
    omega

/-- Every block of the evidence loop starts at or above the bottom margin
line. -/
theorem evidenceBlocks_y_le (evs : List Evidence) : ∀ st : LayoutSt,
    ((evidenceBlocks st evs).1.all
      (fun b => decide (b.y ≤ pageHeight - margin))) = Bool.true := by
  induction evs with
  | nil => intro st; rfl
  | cons ev rest ih =>
    intro st
    have hpm : pageHeight - margin = 277 := rfl
    have h15 := checkPageBreak_y_le 15 st (by omega)
    simp only [evidenceBlocks]
    split
    · simp only [List.all_cons, Bool.and_eq_true, decide_eq_true_eq]
      exact ⟨by omega, ih _⟩
    · simp only [List.all_cons, Bool.and_eq_true, decide_eq_true_eq]
      exact ⟨by omega, by omega, ih _⟩

/-- Every block of the evidence section of one claim starts at or above the
bottom margin line. -/
theorem claimEvidenceSection_y_le (st : LayoutSt) (c : Claim) :
    ((claimEvidenceSection st c).1.all
      (fun b => decide (b.y ≤ pageHeight - margin))) = Bool.true := by
  have hpm : pageHeight - margin = 277 := rfl
  unfold claimEvidenceSection
  split
  · rfl
  · have h30 := checkPageBreak_y_le 30 st (by omega)
    simp only [List.all_cons, Bool.and_eq_true, decide_eq_true_eq]
    exact ⟨by omega, evidenceBlocks_y_le c.evidence _⟩

/-- Every block of the claims loop starts at or above the bottom margin
line, whatever the entry cursor. -/
theorem claimBlocks_y_le (wrap : String → Nat → Nat) (cs : List Claim) :
    ∀ (st : LayoutSt) (idx : Nat),
    ((claimBlocks wrap st idx cs).1.all
      (fun b => decide (b.y ≤ pageHeight - margin))) = Bool.true := by
  induction cs with
  | nil => intro st idx; rfl
  | cons c rest ih =>
    intro st idx
    have hpm : pageHeight - margin = 277 := rfl
    have h50 := checkPageBreak_y_le 50 st (by omega)
    simp only [claimBlocks]
    simp only [List.all_cons, List.all_append, Bool.and_eq_true, decide_eq_true_eq]
    refine ⟨by omega, by omega, by omega, ?_, ?_, ?_, ?_⟩
    · exact le_trans (Nat.le_add_right _ 20) (checkPageBreak_y_le 20 _ (by omega))
    · exact le_trans (Nat.add_le_add_left (by omega) _)
        (checkPageBreak_y_le 20 _ (by omega))
    · exact claimEvidenceSection_y_le _ c
    · exact ih _ _

/-! ## C6 -/

/-- C6, counterexample.  With no break check before the executive summary,
a 40-line summary is drawn starting at cursor 98 on page 1 with drawn height
240, extending far past `pageHeight - margin`, and no new page is started:
the overflowing block is neither within the page body nor the first content
of a following page, refuting the claim that before every block a break is
inserted whenever the block height would overflow. -/
theorem c6_counterexample :
    blocksRespectBreaks []
      (generatePdfReport (fun _ _ => 40) "2026-01-01, 00:00:00"
        sampleResponse).blocks = Bool.false := by
  rfl

/-- C6, amended.  `generatePdfReport` inserts page breaks only through
`checkPageBreak` calls with the fixed height estimates 20, 50, 20, 30 and 15
placed before the claims heading, each claim, each reasoning paragraph, each
evidence section and each evidence line; a block whose drawn height exceeds
the space left may therefore extend below `pageHeight - margin`.  What does
hold for every input is that no block ever STARTS below the bottom margin
line: every emitted block has its starting cursor at most
`pageHeight - margin`, and when a check fires the cursor is reset to the top
margin so the checked block begins the new page. -/
theorem c6_amended (wrap : String → Nat → Nat) (nowText : String)
    (data : FactCheckResponse) :
    ((generatePdfReport wrap nowText data).blocks.all
      (fun b => decide (b.y ≤ pageHeight - margin))) = Bool.true := by
  have hpm : pageHeight - margin = 277 := rfl
  simp only [generatePdfReport]
  simp only [List.all_append, List.all_cons, Bool.and_eq_true, decide_eq_true_eq]
  repeat' apply And.intro
  all_goals
    first
      | omega
      | exact le_trans (Nat.le_add_right _ 20) (checkPageBreak_y_le 20 _ (by omega))
      | exact claimBlocks_y_le wrap data.claims _ 0
      | rfl

/-! ## C7 -/

/-- C7.  The layout of `generatePdfReport` is deterministic and independent
of the timestamp: for the same response and the same wrapping collaborator,
two runs with different printed timestamps produce exactly the same sequence
of block positions (page, start cursor, drawn height) and exactly the same
footer stamps; the timestamp occurs only inside the printed content of the
date line. -/
theorem c7_layout_timestamp_independent (wrap : String → Nat → Nat)
    (t1 t2 : String) (data : FactCheckResponse) :
    (generatePdfReport wrap t1 data).blocks.map blockPos =
      (generatePdfReport wrap t2 data).blocks.map blockPos ∧
    (generatePdfReport wrap t1 data).footer =
      (generatePdfReport wrap t2 data).footer := by
  constructor
  · simp only [generatePdfReport, List.map_append, List.map_cons, blockPos]
  · rfl

/-! ## C8 -/

/-- C8, counterexample.  A PNG file is submitted: its MIME type survives
nowhere — `fileToBase64` strips the data-URL header and `analyzeContent`
tags the inline part with the literal constant, so the payload MIME type is
`image/jpeg`, not the `image/png` of the submitted file. -/
theorem c8_counterexample :
    partMime (submitImagePayload
        { mime := "image/png", dataBase64 := "iVBORw0KGgo" } ""
        Mode.standard).head? = some "image/jpeg" ∧
    ("image/jpeg" : String) ≠ "image/png" := by
  exact ⟨rfl, by decide⟩

/-- C8, amended.  For every submitted image file whose base64 payload is
non-empty (the JavaScript truthiness guard `if (imageBase64)` holds), the
inline binary part of the request payload is tagged with the constant MIME
type `image/jpeg`, regardless of the MIME type of the submitted file — which
is discarded when the data URL is split; and for a zero-byte file, whose
base64 payload is the empty string, the truthiness guard fails and the
payload carries no inline binary part at all. -/
theorem c8_amended (f : MediaFile) (text : String) (mode : Mode) :
    ((fileToBase64 f).isEmpty = Bool.false →
      partMime (submitImagePayload f text mode).head? = some "image/jpeg") ∧
    ((fileToBase64 f).isEmpty = Bool.true →
      partMime (submitImagePayload f text mode).head? = none) := by
  constructor
  · intro h
    simp only [submitImagePayload, buildParts, h, Bool.false_eq_true, if_false]
    rfl
  · intro h
    simp only [submitImagePayload, buildParts, h, if_true]
    unfold textOnlyParts
    split <;> rfl

/-- C8, witness: the amended theorem at a non-empty PNG file (tagged with
the constant `image/jpeg`) and at a zero-byte file (no inline part). -/
theorem c8_amended_witness :
    partMime (submitImagePayload
        { mime := "image/png", dataBase64 := "iVBORw0KGgo" } "context"
        Mode.deep).head? = some "image/jpeg" ∧
    partMime (submitImagePayload
        { mime := "image/png", dataBase64 := "" } "check this"
        Mode.standard).head? = none :=
  ⟨(c8_amended _ _ _).1 (by decide), (c8_amended _ _ _).2 (by decide)⟩

/-! ## C9 -/

/-- C9, counterexample.  A 61-character query: the stored label is the
60-character prefix plus a three-character ellipsis, 63 characters in all,
exceeding the 60-character bound stated by the claim. -/
theorem c9_counterexample :
    (addToHistory 0 longQuery sampleResponse []).head? =
      some (mkHistoryItem 0 longQuery sampleResponse) ∧
    (mkHistoryItem 0 longQuery sampleResponse).query.length = 63 ∧
    ¬ ((mkHistoryItem 0 longQuery sampleResponse).query.length ≤ 60) := by
  refine ⟨rfl, by decide, by decide⟩

/-- C9, amended.  After every history update: at most 10 entries are kept
with the new entry first and the oldest entries evicted by the truncation to
10; the stored query label is the query itself when it has at most 60
characters and otherwise the 60-character prefix with a three-character
ellipsis, so the label never exceeds the larger of the query length and 63
characters (not 60); and of all App events only the successful-completion
event changes the history through `addToHistory` — failure, submission and
reset leave it unchanged, and the Clear button empties it. -/
theorem c9_amended (now : Nat) (query : List Char) (r : FactCheckResponse)
    (history : List HistoryItem) (s : AppState) (m : String) :
    (addToHistory now query r history).length ≤ 10 ∧
    (addToHistory now query r history).head? =
      some (mkHistoryItem now query r) ∧
    addToHistory now query r history =
      (mkHistoryItem now query r :: history).take 10 ∧
    (mkHistoryItem now query r).query =
      (if query.length > 60 then query.take 60 ++ chars "..." else query) ∧
    (mkHistoryItem now query r).query.length ≤ max query.length 63 ∧
    (stepApp s Ev.submit).history = s.history ∧
    (stepApp s (Ev.finishErr m)).history = s.history ∧
    (stepApp s Ev.reset).history = s.history ∧
    (stepApp s Ev.clearHistory).history = [] ∧
    (stepApp s (Ev.finishOk now query r)).history =
      addToHistory now query r s.history := by
  refine ⟨?_, rfl, rfl, rfl, ?_, rfl, rfl, rfl, rfl, rfl⟩
  · rw [addToHistory, List.length_take]
    exact Nat.min_le_left _ _
  · simp only [mkHistoryItem]
    split
    · rename_i h
      simp only [List.length_append, List.length_take]
      have hdots : (chars "...").length = 3 := rfl
      rw [hdots]
      omega
    · omega

/-! ## C10 -/

/-- C10.  In every App state reachable from the initial state, the `data`
field is non-null only when the status is complete: every reachable state
whose status is idle, analyzing or error carries `data = none`, because each
transition into those statuses sets `data` to null and the history-clearing
event leaves the analysis state untouched. -/
theorem c10_state_invariant :
    ∀ s : AppState, ReachableApp s →
      s.analysis.status ≠ Status.complete → s.analysis.data = none := by
  intro s hs
  induction hs with
  | init => intro _; rfl
  | next s' e _ ih =>
    intro h
    cases e with
    | submit => rfl
    | finishOk now q r => exact absurd rfl h
    | finishErr m => rfl
    | reset => rfl
    | clearHistory => exact ih h

/-- C10, witness: submit then failure — the reachable error state carries no
data. -/
theorem c10_state_invariant_witness :
    (stepApp (stepApp initApp Ev.submit)
      (Ev.finishErr "request failed")).analysis.data = none :=
  c10_state_invariant _
    (ReachableApp.next _ (Ev.finishErr "request failed")
      (ReachableApp.next _ Ev.submit ReachableApp.init))
    (fun h => Status.noConfusion h)
